import Mathlib

/-!
Verification of the adversarial-training core of the Repro-GANs repository.

The repository implements four GAN variants (GAN, WGAN-GP, SAGAN,
SNGAN-projection) in PyTorch.  This development shallowly embeds the
numerically interesting pieces — the self-attention block, the hinge losses,
the projection discriminator head, the training-loop schedule, the
detachment semantics of the discriminator step, shape propagation of the
conditional networks, and the per-variant layer stacks — and proves the
specified properties about them.

Tensors are modelled as functions out of `Fin`-indexed types over `ℚ`
(exact arithmetic stands in for floating point; "within floating
tolerance" becomes exact equality).  The exponential used by the softmax
is an abstract strictly positive function `e : ℚ → ℚ`: the only property
of the real exponential the row-stochasticity of softmax depends on is
positivity, and an abstract `e` keeps every definition computable.
-/

namespace ReproGANs

/-! ### Softmax and 1×1 convolutions (src/SAGAN/models.py) -/

/-- Row softmax, the mathematical contract of `F.softmax(·, dim=-1)`:
entry `j` is `e (r j)` divided by the row's total mass.  (The
implementation subtracts the row maximum before exponentiating for
numerical stability; for the true exponential this leaves the value
unchanged, so the stabilisation shift does not appear here.) -/
def softmax (e : ℚ → ℚ) {N : ℕ} (r : Fin N → ℚ) : Fin N → ℚ :=
  fun j => e (r j) / ∑ k, e (r k)

/-- A 1×1 convolution `nn.Conv2d(I, O, (1, 1))` acting on a feature map
whose spatial positions have been flattened to `Fin N` (the `view` in
`SelfAttentionBlock.forward`): a per-position affine map on channels. -/
def conv1x1 {B I O N : ℕ} (W : Fin O → Fin I → ℚ) (bv : Fin O → ℚ)
    (X : Fin B → Fin I → Fin N → ℚ) : Fin B → Fin O → Fin N → ℚ :=
  fun b o n => (∑ c, W o c * X b c n) + bv o

/-- Parameters of `SelfAttentionBlock(in_channels, k)` from
src/SAGAN/models.py: the four 1×1 convolutions `f`, `g`, `h` (C → C/k)
and `v` (C/k → C) with their biases, and the scalar `gamma`.
`mid` stands for `in_channels // k`. -/
structure SelfAttentionBlock (C mid : ℕ) where
  fW : Fin mid → Fin C → ℚ
  fB : Fin mid → ℚ
  gW : Fin mid → Fin C → ℚ
  gB : Fin mid → ℚ
  hW : Fin mid → Fin C → ℚ
  hB : Fin mid → ℚ
  vW : Fin C → Fin mid → ℚ
  vB : Fin C → ℚ
  gamma : ℚ

/-- The attention map computed inside `SelfAttentionBlock.forward`:
`F.softmax(torch.bmm(fX.permute(0, 2, 1), gX), dim=-1)`, i.e. row `i` is
the softmax over `j` of the similarity `∑ c, fX[b,c,i] * gX[b,c,j]`. -/
def SelfAttentionBlock.attentionMap (e : ℚ → ℚ) {B C mid N : ℕ}
    (blk : SelfAttentionBlock C mid) (X : Fin B → Fin C → Fin N → ℚ) :
    Fin B → Fin N → Fin N → ℚ :=
  fun b i =>
    softmax e (fun j => ∑ c,
      conv1x1 blk.fW blk.fB X b c i * conv1x1 blk.gW blk.gB X b c j)

/-- `SelfAttentionBlock.forward` from src/SAGAN/models.py on a feature map
with flattened spatial axis of length `N = H*W`.  Returns the pair
`(gamma * v(h(X) · attentionᵀ) + X, attention)` exactly as the source:
`output = torch.bmm(hX, attention_map.permute(0, 2, 1))`, then
`output = self.v(output)`, then `return self.gamma * output + X, attention_map`. -/
def SelfAttentionBlock.forward (e : ℚ → ℚ) {B C mid N : ℕ}
    (blk : SelfAttentionBlock C mid) (X : Fin B → Fin C → Fin N → ℚ) :
    (Fin B → Fin C → Fin N → ℚ) × (Fin B → Fin N → Fin N → ℚ) :=
  (fun b c n =>
      blk.gamma *
        conv1x1 blk.vW blk.vB
          (fun b' c' n' => ∑ m,
            conv1x1 blk.hW blk.hB X b' c' m *
              SelfAttentionBlock.attentionMap e blk X b' n' m) b c n
      + X b c n,
    SelfAttentionBlock.attentionMap e blk X)

lemma softmax_sum_eq_one (e : ℚ → ℚ) (he : ∀ x, 0 < e x) {N : ℕ}
    (r : Fin N → ℚ) (i : Fin N) : ∑ j, softmax e r j = 1 := by
  have hpos : 0 < ∑ k, e (r k) :=
    Finset.sum_pos (fun k _ => he (r k)) ⟨i, Finset.mem_univ i⟩
  unfold softmax
  rw [← Finset.sum_div, div_self (ne_of_gt hpos)]

lemma softmax_nonneg (e : ℚ → ℚ) (he : ∀ x, 0 < e x) {N : ℕ}
    (r : Fin N → ℚ) (j : Fin N) : 0 ≤ softmax e r j := by
  have hpos : 0 ≤ ∑ k, e (r k) :=
    Finset.sum_nonneg (fun k _ => (he (r k)).le)
  exact div_nonneg (he (r j)).le hpos

/-- C1: every row of the attention map returned by
`SelfAttentionBlock.forward` on an `H×W` feature map sums to 1 and has
non-negative entries; by its type, the map is a square `N×N` matrix per
batch element with `N = H*W`. -/
theorem attention_map_row_stochastic (e : ℚ → ℚ) (he : ∀ x, 0 < e x)
    {B C mid H W : ℕ} (blk : SelfAttentionBlock C mid)
    (X : Fin B → Fin C → Fin (H * W) → ℚ) (b : Fin B) (i : Fin (H * W)) :
    (∑ j, (SelfAttentionBlock.forward e blk X).2 b i j) = 1 ∧
    ∀ j, 0 ≤ (SelfAttentionBlock.forward e blk X).2 b i j := by
  constructor
  · exact softmax_sum_eq_one e he _ i
  · intro j
    exact softmax_nonneg e he _ j

/-- An all-zero example block on 2 channels (mid = 1). -/
def sabExample : SelfAttentionBlock 2 1 :=
  ⟨fun _ _ => 0, fun _ => 0, fun _ _ => 0, fun _ => 0,
   fun _ _ => 0, fun _ => 0, fun _ _ => 0, fun _ => 0, 0⟩

/-- An example 1×2×(1·2) feature map. -/
def sabExampleX : Fin 1 → Fin 2 → Fin (1 * 2) → ℚ := fun _ _ _ => 1

/-- C1 witness: the row-stochasticity theorem applied at a concrete block,
feature map, batch index and row. -/
theorem attention_map_row_stochastic_witness :
    (∑ j, (SelfAttentionBlock.forward (fun _ => 1) sabExample sabExampleX).2 0 0 j) = 1 :=
  (attention_map_row_stochastic (fun _ => 1) (fun _ => one_pos)
    sabExample sabExampleX 0 0).1

/-! ### Weight initialization dispatch (src/SAGAN/models.py, `weights_init`) -/

/-- Does `pat` occur at the start of `s`?  Building block for Python's
`str.find(pat) != -1`. -/
def charsStartWith : List Char → List Char → Bool
  | _, [] => true
  | [], _ :: _ => false
  | a :: as, b :: bs => a = b && charsStartWith as bs

/-- Does `pat` occur anywhere in `s`?  This is exactly the condition
`classname.find(pat) != -1` used by `weights_init`. -/
def charsContain : List Char → List Char → Bool
  | [], pat => pat.isEmpty
  | s@(_ :: rest), pat => charsStartWith s pat || charsContain rest pat

/-- A PyTorch module as `weights_init` sees it: its class name and its
`weight` / `bias` parameter data (flattened). -/
structure TorchModule where
  classname : String
  weight : List ℚ
  bias : List ℚ
deriving DecidableEq

/-- `weights_init(m)` from src/SAGAN/models.py: if the class name contains
`'Conv'`, redraw `m.weight` from N(0, 0.02) (the fresh draw is passed in
as `freshNormal`); else if it contains `'BatchNorm'`, set `m.weight` to
ones and `m.bias` to zeros; otherwise leave the module untouched. -/
def weights_init (freshNormal : List ℚ) (m : TorchModule) : TorchModule :=
  if charsContain m.classname.data "Conv".data then
    { m with weight := freshNormal }
  else if charsContain m.classname.data "BatchNorm".data then
    { m with weight := List.replicate m.weight.length 1,
             bias := List.replicate m.bias.length 0 }
  else m

/-- The state of a `SelfAttentionBlock` right after `__init__` and a pass
of `self.apply(weights_init)`: the four `Conv2d` submodules (class name
`"Conv2d"`, which contains `"Conv"`) have their weights redrawn — the
fresh draws are the `fW gW hW vW` arguments — their biases keep the
constructor values `fB gB hB vB`, and `gamma` keeps the constructor value
`nn.Parameter(torch.zeros(1))`: the block's own class name
`"SelfAttentionBlock"` matches neither the `'Conv'` nor the `'BatchNorm'`
branch, and `gamma` is not the `weight` of any matched submodule. -/
def sabInitialized {C mid : ℕ}
    (fW : Fin mid → Fin C → ℚ) (fB : Fin mid → ℚ)
    (gW : Fin mid → Fin C → ℚ) (gB : Fin mid → ℚ)
    (hW : Fin mid → Fin C → ℚ) (hB : Fin mid → ℚ)
    (vW : Fin C → Fin mid → ℚ) (vB : Fin C → ℚ) :
    SelfAttentionBlock C mid :=
  ⟨fW, fB, gW, gB, hW, hB, vW, vB, 0⟩

/-- C4: `weights_init` leaves any module whose class name contains neither
`'Conv'` nor `'BatchNorm'` untouched (in particular a
`SelfAttentionBlock`, so its `gamma` is never re-initialized); after
construction and weight initialization `gamma = 0`; and consequently the
first component of `forward` is exactly the input feature map. -/
theorem gamma_zero_makes_block_identity (freshNormal : List ℚ)
    (m : TorchModule)
    (hc : charsContain m.classname.data "Conv".data = false)
    (hb : charsContain m.classname.data "BatchNorm".data = false)
    (e : ℚ → ℚ) {B C mid N : ℕ}
    (fW : Fin mid → Fin C → ℚ) (fB : Fin mid → ℚ)
    (gW : Fin mid → Fin C → ℚ) (gB : Fin mid → ℚ)
    (hW : Fin mid → Fin C → ℚ) (hB : Fin mid → ℚ)
    (vW : Fin C → Fin mid → ℚ) (vB : Fin C → ℚ)
    (X : Fin B → Fin C → Fin N → ℚ) :
    weights_init freshNormal m = m ∧
    (sabInitialized fW fB gW gB hW hB vW vB).gamma = 0 ∧
    (SelfAttentionBlock.forward e (sabInitialized fW fB gW gB hW hB vW vB) X).1 = X := by
  refine ⟨?_, rfl, ?_⟩
  · unfold weights_init
    rw [hc, hb]
    simp
  · funext b c n
    show (sabInitialized fW fB gW gB hW hB vW vB).gamma * _ + X b c n = X b c n
    rw [show (sabInitialized fW fB gW gB hW hB vW vB).gamma = 0 from rfl]
    ring

/-- C4 witness: applied to the `SelfAttentionBlock` module itself (whose
class name contains neither pattern) and to a concrete 2-channel block
and feature map. -/
theorem gamma_zero_makes_block_identity_witness :
    weights_init [5] ⟨"SelfAttentionBlock", [0], []⟩ = ⟨"SelfAttentionBlock", [0], []⟩ ∧
    (sabInitialized sabExample.fW sabExample.fB sabExample.gW sabExample.gB
      sabExample.hW sabExample.hB sabExample.vW sabExample.vB).gamma = 0 ∧
    (SelfAttentionBlock.forward (fun _ => 1)
      (sabInitialized sabExample.fW sabExample.fB sabExample.gW sabExample.gB
        sabExample.hW sabExample.hB sabExample.vW sabExample.vB) sabExampleX).1 = sabExampleX :=
  gamma_zero_makes_block_identity [5] ⟨"SelfAttentionBlock", [0], []⟩
    (by decide) (by decide) (fun _ => 1)
    sabExample.fW sabExample.fB sabExample.gW sabExample.gB
    sabExample.hW sabExample.hB sabExample.vW sabExample.vB sabExampleX

/-! ### Hinge discriminator loss (src/SNGAN-projection/trainer.py) -/

/-- `F.relu`: `max(x, 0)`. -/
def relu (x : ℚ) : ℚ := max x 0

/-- The discriminator loss as the trainer computes it:
`torch.mean(F.relu(1 - d_real) + F.relu(1 + d_fake))` — a single mean over
the elementwise sum of the two per-sample hinge terms. -/
def trainerLossD {n : ℕ} (dReal dFake : Fin n → ℚ) : ℚ :=
  (∑ i, (relu (1 - dReal i) + relu (1 + dFake i))) / n

/-- The discriminator loss as the spec writes it:
`mean(max(0, 1 − realScore)) + mean(max(0, 1 + fakeScore))`. -/
def specLossD {n : ℕ} (dReal dFake : Fin n → ℚ) : ℚ :=
  (∑ i, relu (1 - dReal i)) / n + (∑ i, relu (1 + dFake i)) / n

/-- C2: the trainer's single mean over the summed per-sample hinge terms
equals the spec's sum of two means, for every batch of real and fake
scores of the same size; and the loss is non-negative by construction. -/
theorem hinge_loss_trainer_eq_spec {n : ℕ} (dReal dFake : Fin n → ℚ) :
    trainerLossD dReal dFake = specLossD dReal dFake ∧
    0 ≤ trainerLossD dReal dFake := by
  constructor
  · unfold trainerLossD specLossD
    rw [Finset.sum_add_distrib, add_div]
  · unfold trainerLossD
    apply div_nonneg _ (Nat.cast_nonneg n)
    apply Finset.sum_nonneg
    intro i _
    exact add_nonneg (le_max_right _ _) (le_max_right _ _)

/-! ### Projection discriminator head (src/SNGAN-projection/models.py) -/

/-- `nn.Linear`: `x ↦ W x + b` (for a spectral-normalized linear layer,
`W` stands for the effective, already rescaled weight `W/σ`;
the parametrization does not touch the bias). -/
def linearMap {i o : ℕ} (W : Fin o → Fin i → ℚ) (b : Fin o → ℚ)
    (x : Fin i → ℚ) : Fin o → ℚ :=
  fun r => (∑ k, W r k * x k) + b r

/-- `F.one_hot(y, num_classes=c)` for an in-range label `y : Fin c`,
as a `ℚ`-valued vector. -/
def oneHotQ {c : ℕ} (y : Fin c) : Fin c → ℚ :=
  fun j => if j = y then 1 else 0

/-- The conditional score of `Discriminator.forward` on a pooled feature
vector `phiX`:
`torch.sum(F.one_hot(y, c_dim) * self.classifier(phiX), dim=1) + self.psi(phiX)`,
written per batch element. -/
def discProjectionScore {c d : ℕ} (classW : Fin c → Fin d → ℚ)
    (classB : Fin c → ℚ) (psiW : Fin d → ℚ) (psiB : ℚ)
    (phiX : Fin d → ℚ) (y : Fin c) : ℚ :=
  (∑ j, oneHotQ y j * linearMap classW classB phiX j) +
    ((∑ k, psiW k * phiX k) + psiB)

/-- The spec's formulation: select the row of the per-class score vector
indexed by the label, then add the unconditional term ψ. -/
def specProjectionScore {c d : ℕ} (classW : Fin c → Fin d → ℚ)
    (classB : Fin c → ℚ) (psiW : Fin d → ℚ) (psiB : ℚ)
    (phiX : Fin d → ℚ) (y : Fin c) : ℚ :=
  linearMap classW classB phiX y + ((∑ k, psiW k * phiX k) + psiB)

/-- C3: the one-hot/sum computation of `Discriminator.forward` equals
row selection — the score is the `y`-th per-class score plus ψ. -/
theorem projection_score_selects_label_row {c d : ℕ}
    (classW : Fin c → Fin d → ℚ) (classB : Fin c → ℚ)
    (psiW : Fin d → ℚ) (psiB : ℚ) (phiX : Fin d → ℚ) (y : Fin c) :
    discProjectionScore classW classB psiW psiB phiX y =
      specProjectionScore classW classB psiW psiB phiX y := by
  unfold discProjectionScore specProjectionScore oneHotQ
  congr 1
  rw [Finset.sum_eq_single y]
  · simp
  · intro j _ hj
    simp [hj]
  · intro h
    exact absurd (Finset.mem_univ y) h

/-! ### Training-loop schedule (src/SNGAN-projection/trainer.py,
`Trainer.train_one_epoch`) -/

/-- One optimizer update of `train_one_epoch`: a discriminator step or a
generator step. -/
inductive TrainEvent
  | dstep
  | gstep
deriving DecidableEq

/-- The updates performed on iteration `it` (0-based, as in
`for it, (X, y) in enumerate(pbar)`): always a discriminator step, then a
generator step exactly when `(it + 1) % d_iters == 0`. -/
def iterEvents (d it : ℕ) : List TrainEvent :=
  TrainEvent.dstep :: (if (it + 1) % d = 0 then [TrainEvent.gstep] else [])

/-- The sequence of updates in one epoch of `n` batches, in order. -/
def epochTrace (d : ℕ) : ℕ → List TrainEvent
  | 0 => []
  | n + 1 => epochTrace d n ++ iterEvents d n

/-- Occurrence count of an event in a trace. -/
def countEvent (ev : TrainEvent) : List TrainEvent → ℕ
  | [] => 0
  | a :: l => (if a = ev then 1 else 0) + countEvent ev l

lemma countEvent_append (ev : TrainEvent) (l₁ l₂ : List TrainEvent) :
    countEvent ev (l₁ ++ l₂) = countEvent ev l₁ + countEvent ev l₂ := by
  induction l₁ with
  | nil => simp [countEvent]
  | cons a l ih => simp [countEvent, ih]; ring

lemma countEvent_gstep_iterEvents (d it : ℕ) :
    countEvent TrainEvent.gstep (iterEvents d it) =
      if (it + 1) % d = 0 then 1 else 0 := by
  unfold iterEvents
  by_cases h : (it + 1) % d = 0 <;> simp [h, countEvent]

lemma countEvent_dstep_iterEvents (d it : ℕ) :
    countEvent TrainEvent.dstep (iterEvents d it) = 1 := by
  unfold iterEvents
  by_cases h : (it + 1) % d = 0 <;> simp [h, countEvent]

/-- No two consecutive events of a trace are both generator steps. -/
def noConsecutiveG (l : List TrainEvent) : Prop :=
  List.Chain' (fun a b => ¬(a = TrainEvent.gstep ∧ b = TrainEvent.gstep)) l

lemma noConsecutiveG_iterEvents (d it : ℕ) : noConsecutiveG (iterEvents d it) := by
  unfold noConsecutiveG iterEvents
  by_cases h : (it + 1) % d = 0 <;> simp [h]

lemma noConsecutiveG_epochTrace (d n : ℕ) : noConsecutiveG (epochTrace d n) := by
  induction n with
  | zero => exact List.chain'_nil
  | succ n ih =>
    show List.Chain' _ (epochTrace d n ++ iterEvents d n)
    rw [List.chain'_append]
    refine ⟨ih, noConsecutiveG_iterEvents d n, ?_⟩
    intro x _ y hy hcontra
    have hyd : y = TrainEvent.dstep := by
      unfold iterEvents at hy
      simp at hy
      exact hy.symm
    rw [hyd] at hcontra
    exact TrainEvent.noConfusion hcontra.2

/-- C5: in every epoch of `n` batches with `d_iters = d > 0`, the trace
contains one discriminator step per batch, exactly `⌊n / d⌋` generator
steps, never two consecutive generator steps, and iteration `it` carries a
generator step iff the number of discriminator steps completed so far
(`it + 1`) is a multiple of `d`. -/
theorem epoch_schedule_generator_steps (d n : ℕ) (hd : 0 < d) :
    countEvent TrainEvent.gstep (epochTrace d n) = n / d ∧
    countEvent TrainEvent.dstep (epochTrace d n) = n ∧
    noConsecutiveG (epochTrace d n) ∧
    (∀ it, TrainEvent.gstep ∈ iterEvents d it ↔ d ∣ (it + 1)) := by
  refine ⟨?_, ?_, noConsecutiveG_epochTrace d n, ?_⟩
  · induction n with
    | zero => simp [epochTrace, countEvent]
    | succ n ih =>
      rw [epochTrace, countEvent_append, ih, countEvent_gstep_iterEvents,
        Nat.succ_div]
      by_cases h : d ∣ (n + 1)
      · rw [if_pos h, if_pos (Nat.dvd_iff_mod_eq_zero.mp h)]
      · rw [if_neg h, if_neg (fun hm => h (Nat.dvd_iff_mod_eq_zero.mpr hm))]
  · induction n with
    | zero => simp [epochTrace, countEvent]
    | succ n ih =>
      rw [epochTrace, countEvent_append, ih, countEvent_dstep_iterEvents]
  · intro it
    unfold iterEvents
    by_cases h : (it + 1) % d = 0
    · simp [h, Nat.dvd_iff_mod_eq_zero.mpr h]
    · simp only [if_neg h, List.mem_singleton, List.mem_cons]
      constructor
      · intro hmem
        exact absurd hmem (by simp)
      · intro hdvd
        exact absurd (Nat.dvd_iff_mod_eq_zero.mp hdvd) h

/-- C5 witness: with `d_iters = 2` over an epoch of 5 batches there are
`5 / 2 = 2` generator steps and 5 discriminator steps. -/
theorem epoch_schedule_generator_steps_witness :
    countEvent TrainEvent.gstep (epochTrace 2 5) = 5 / 2 ∧
    countEvent TrainEvent.dstep (epochTrace 2 5) = 5 :=
  ⟨(epoch_schedule_generator_steps 2 5 (by decide)).1,
   (epoch_schedule_generator_steps 2 5 (by decide)).2.1⟩

/-! ### Detachment semantics of the discriminator step
(src/SNGAN-projection/trainer.py: `fake = self.G(z, y).detach()`) -/

/-- Which network a parameter belongs to. -/
inductive Net
  | gen
  | disc
deriving DecidableEq

/-- A learnable parameter, tagged with its network. -/
structure Param where
  net : Net
  idx : ℕ
deriving DecidableEq

/-- The differentiable computations the discriminator step builds:
parameters, constants, ring operations, `F.relu`, and `.detach()`. -/
inductive Expr
  | var : Param → Expr
  | const : ℚ → Expr
  | add : Expr → Expr → Expr
  | mul : Expr → Expr → Expr
  | neg : Expr → Expr
  | relu : Expr → Expr
  | detach : Expr → Expr
deriving DecidableEq

/-- Forward evaluation; `.detach()` is the identity on values. -/
def Expr.eval (θ : Param → ℚ) : Expr → ℚ
  | var p => θ p
  | const q => q
  | add a b => a.eval θ + b.eval θ
  | mul a b => a.eval θ * b.eval θ
  | neg a => -a.eval θ
  | relu a => max (a.eval θ) 0
  | detach a => a.eval θ

/-- The gradient autograd accumulates into parameter `p` when
backpropagating through an expression: `.detach()` blocks all gradient
flow, and `relu` uses the subgradient that is 0 at and below 0. -/
def Expr.deriv (θ : Param → ℚ) (p : Param) : Expr → ℚ
  | var q => if q = p then 1 else 0
  | const _ => 0
  | add a b => a.deriv θ p + b.deriv θ p
  | mul a b => a.deriv θ p * b.eval θ + a.eval θ * b.deriv θ p
  | neg a => -a.deriv θ p
  | relu a => if 0 < a.eval θ then a.deriv θ p else 0
  | detach _ => 0

/-- Every occurrence of a generator parameter lies under a `.detach()`. -/
def Expr.genDetached : Expr → Bool
  | var q => decide (q.net = Net.disc)
  | const _ => true
  | add a b => a.genDetached && b.genDetached
  | mul a b => a.genDetached && b.genDetached
  | neg a => a.genDetached
  | relu a => a.genDetached
  | detach _ => true

lemma deriv_eq_zero_of_genDetached (θ : Param → ℚ) (p : Param)
    (hp : p.net = Net.gen) :
    ∀ e : Expr, e.genDetached = true → e.deriv θ p = 0 := by
  intro e
  induction e with
  | var q =>
    intro h
    have hq : q.net = Net.disc := by
      simpa [Expr.genDetached] using h
    have : q ≠ p := by
      intro hqp
      rw [hqp, hp] at hq
      exact Net.noConfusion hq
    simp [Expr.deriv, this]
  | const q => intro _; rfl
  | add a b iha ihb =>
    intro h
    have ha := (Bool.and_eq_true _ _).mp h
    simp [Expr.deriv, iha ha.1, ihb ha.2]
  | mul a b iha ihb =>
    intro h
    have ha := (Bool.and_eq_true _ _).mp h
    simp [Expr.deriv, iha ha.1, ihb ha.2]
  | neg a iha =>
    intro h
    simp [Expr.deriv, iha (by simpa [Expr.genDetached] using h)]
  | relu a iha =>
    intro h
    have := iha (by simpa [Expr.genDetached] using h)
    simp [Expr.deriv, this]
  | detach a _ => intro _; rfl

/-- `a - b` as an expression. -/
def Expr.sub (a b : Expr) : Expr := Expr.add a (Expr.neg b)

/-- Sum of a list of expressions. -/
def sumExpr : List Expr → Expr
  | [] => Expr.const 0
  | a :: l => Expr.add a (sumExpr l)

/-- One batch element's contribution to the discriminator hinge loss:
`F.relu(1 - d_real) + F.relu(1 + d_fake)`. -/
def hingeTerm (r f : Expr) : Expr :=
  Expr.add (Expr.relu (Expr.sub (Expr.const 1) r))
    (Expr.relu (Expr.add (Expr.const 1) f))

/-- The computation graph of
`lossD = torch.mean(F.relu(1 - d_real) + F.relu(1 + d_fake))`:
the per-sample hinge terms summed and scaled by `1 / batch size`. -/
def trainerLossDExpr (reals fakes : List Expr) : Expr :=
  Expr.mul (Expr.const (1 / (reals.length : ℚ)))
    (sumExpr (List.zipWith hingeTerm reals fakes))

lemma sumExpr_genDetached (l : List Expr)
    (h : ∀ e ∈ l, e.genDetached = true) : (sumExpr l).genDetached = true := by
  induction l with
  | nil => rfl
  | cons a l ih =>
    simp only [sumExpr, Expr.genDetached, Bool.and_eq_true]
    exact ⟨h a (List.mem_cons_self a l), ih (fun e he => h e (List.mem_cons_of_mem a he))⟩

lemma zipWith_hingeTerm_genDetached :
    ∀ (reals fakes : List Expr),
      (∀ r ∈ reals, r.genDetached = true) →
      (∀ f ∈ fakes, f.genDetached = true) →
      ∀ e ∈ List.zipWith hingeTerm reals fakes, e.genDetached = true := by
  intro reals
  induction reals with
  | nil =>
    intro fakes _ _ e he
    simp [List.zipWith] at he
  | cons r rs ih =>
    intro fakes hr hf e he
    cases fakes with
    | nil => simp [List.zipWith] at he
    | cons f fs =>
      simp only [List.zipWith, List.mem_cons] at he
      rcases he with rfl | he
      · have hrd := hr r (List.mem_cons_self r rs)
        have hfd := hf f (List.mem_cons_self f fs)
        simp [hingeTerm, Expr.sub, Expr.genDetached, hrd, hfd]
      · exact ih fs (fun x hx => hr x (List.mem_cons_of_mem r hx))
          (fun x hx => hf x (List.mem_cons_of_mem f hx)) e he

lemma trainerLossDExpr_genDetached (reals fakes : List Expr)
    (hr : ∀ r ∈ reals, r.genDetached = true)
    (hf : ∀ f ∈ fakes, f.genDetached = true) :
    (trainerLossDExpr reals fakes).genDetached = true := by
  unfold trainerLossDExpr
  simp only [Expr.genDetached, Bool.and_eq_true]
  exact ⟨trivial, sumExpr_genDetached _
    (zipWith_hingeTerm_genDetached reals fakes hr hf)⟩

/-- `self.optimizerD.step()`: a first-order update applied to exactly the
parameters the optimizer was constructed with (`optim.Adam(D.parameters(), …)`
holds only discriminator parameters); every other parameter is left as is. -/
def discOptimizerStep (lr : ℚ) (θ : Param → ℚ) (loss : Expr) : Param → ℚ :=
  fun q => if q.net = Net.disc then θ q - lr * loss.deriv θ q else θ q

/-- C6: if every generator-parameter occurrence in the real and fake score
graphs is under a `.detach()` (the trainer guarantees this with
`fake = self.G(z, y).detach()`, and real scores contain no generator
parameters at all), then backpropagating the discriminator hinge loss
accumulates zero gradient into any generator parameter, the discriminator
optimizer step leaves every generator parameter unchanged, and the
detached fake still evaluates to the generator's output value. -/
theorem disc_step_preserves_generator_params (θ : Param → ℚ) (lr : ℚ)
    (p : Param) (reals fakes : List Expr)
    (hr : ∀ r ∈ reals, r.genDetached = true)
    (hf : ∀ f ∈ fakes, f.genDetached = true)
    (hp : p.net = Net.gen) :
    (trainerLossDExpr reals fakes).deriv θ p = 0 ∧
    discOptimizerStep lr θ (trainerLossDExpr reals fakes) p = θ p ∧
    (∀ e : Expr, (Expr.detach e).eval θ = e.eval θ) ∧
    (∀ e : Expr, (Expr.detach e).genDetached = true) := by
  refine ⟨?_, ?_, fun e => rfl, fun e => rfl⟩
  · exact deriv_eq_zero_of_genDetached θ p hp _
      (trainerLossDExpr_genDetached reals fakes hr hf)
  · unfold discOptimizerStep
    rw [if_neg]
    rw [hp]
    exact fun h => Net.noConfusion h

/-- C6 witness: one real score (a discriminator parameter), one fake score
built from a detached generator output, and a generator parameter. -/
theorem disc_step_preserves_generator_params_witness :
    (trainerLossDExpr [Expr.var ⟨Net.disc, 0⟩]
        [Expr.relu (Expr.detach (Expr.var ⟨Net.gen, 0⟩))]).deriv (fun _ => 1) ⟨Net.gen, 0⟩ = 0 ∧
    discOptimizerStep (1 / 100) (fun _ => 1)
        (trainerLossDExpr [Expr.var ⟨Net.disc, 0⟩]
          [Expr.relu (Expr.detach (Expr.var ⟨Net.gen, 0⟩))]) ⟨Net.gen, 0⟩ = 1 :=
  ⟨(disc_step_preserves_generator_params (fun _ => 1) (1 / 100) ⟨Net.gen, 0⟩
      [Expr.var ⟨Net.disc, 0⟩] [Expr.relu (Expr.detach (Expr.var ⟨Net.gen, 0⟩))]
      (by decide) (by decide) rfl).1,
   (disc_step_preserves_generator_params (fun _ => 1) (1 / 100) ⟨Net.gen, 0⟩
      [Expr.var ⟨Net.disc, 0⟩] [Expr.relu (Expr.detach (Expr.var ⟨Net.gen, 0⟩))]
      (by decide) (by decide) rfl).2.1⟩

/-! ### Shape semantics of the conditional networks
(src/SNGAN-projection/models.py) -/

/-- Shape of a rank-4 tensor `(batch, channels, height, width)`. -/
structure Shape4 where
  n : ℕ
  c : ℕ
  h : ℕ
  w : ℕ
deriving DecidableEq

/-- Shape of a rank-2 tensor `(batch, features)`. -/
structure Shape2 where
  n : ℕ
  f : ℕ
deriving DecidableEq

/-- Output spatial size of `nn.Conv2d` with kernel `k`, stride `s`,
padding `p`: `⌊(size + 2p − k) / s⌋ + 1`; the layer raises when the
output would be empty (kernel larger than the padded input). -/
def conv2dSize (size k s p : ℕ) : Option ℕ :=
  if k ≤ size + 2 * p ∧ 0 < s then some ((size + 2 * p - k) / s + 1) else none

/-- Output spatial size of `nn.ConvTranspose2d`:
`(size − 1)·s − 2p + k`; the layer raises when this would be empty. -/
def convT2dSize (size k s p : ℕ) : Option ℕ :=
  if 0 < size ∧ 2 * p < (size - 1) * s + k then
    some ((size - 1) * s + k - 2 * p) else none

/-- Shape action of `nn.Conv2d(ic, oc, (k, k), stride=(s, s), padding=p)`
(spectral normalization rescales the weight and does not change shapes). -/
def conv2dShape (ic oc k s p : ℕ) (sh : Shape4) : Option Shape4 :=
  if sh.c = ic then do
    let h ← conv2dSize sh.h k s p
    let w ← conv2dSize sh.w k s p
    some ⟨sh.n, oc, h, w⟩
  else none

/-- Shape action of `nn.ConvTranspose2d(ic, oc, (k, k), stride=(s, s), padding=(p, p))`. -/
def convT2dShape (ic oc k s p : ℕ) (sh : Shape4) : Option Shape4 :=
  if sh.c = ic then do
    let h ← convT2dSize sh.h k s p
    let w ← convT2dSize sh.w k s p
    some ⟨sh.n, oc, h, w⟩
  else none

/-- Shape action of `nn.BatchNorm2d(c)`: checks the channel count and
leaves the shape unchanged (activations do the same and are omitted). -/
def batchNorm2dShape (c : ℕ) (sh : Shape4) : Option Shape4 :=
  if sh.c = c then some sh else none

/-- Shape action of `nn.Flatten()` on a rank-4 tensor. -/
def flattenShape (sh : Shape4) : Shape2 :=
  ⟨sh.n, sh.c * sh.h * sh.w⟩

/-- Shape action of `nn.Linear(inF, outF)`. -/
def linearShape (inF outF : ℕ) (sh : Shape2) : Option Shape2 :=
  if sh.f = inF then some ⟨sh.n, outF⟩ else none

/-- `F.one_hot(y, num_classes=c)` on a single label: raises (models as
`none`) unless `0 ≤ y < c`. -/
def one_hot (c : ℕ) (y : ℤ) : Option (List ℚ) :=
  if 0 ≤ y ∧ y < (c : ℤ) then
    some (List.ofFn fun j : Fin c => if (j : ℤ) = y then 1 else 0)
  else none

/-- `F.one_hot` on a label batch: fails iff any entry is out of range. -/
def oneHotBatch (c : ℕ) : List ℤ → Option (List (List ℚ))
  | [] => some []
  | a :: l => do
    let b ← one_hot c a
    let bs ← oneHotBatch c l
    some (b :: bs)

/-- The `self.gen` stack of `Generator(z_dim, c_dim, img_channels)`:
five transposed convolutions interleaved with batch norms (and ReLU /
Tanh activations, which do not affect shapes). -/
def snganGenStack (z_dim c_dim img_channels : ℕ) (sh : Shape4) : Option Shape4 :=
  convT2dShape (z_dim + c_dim) 1024 4 1 0 sh >>=
  batchNorm2dShape 1024 >>=
  convT2dShape 1024 512 4 2 1 >>=
  batchNorm2dShape 512 >>=
  convT2dShape 512 256 4 2 1 >>=
  batchNorm2dShape 256 >>=
  convT2dShape 256 128 4 2 1 >>=
  batchNorm2dShape 128 >>=
  convT2dShape 128 img_channels 4 2 1

/-- `Generator.forward(X, y)`: one-hot encode `y`, view it as
`(len, c_dim, 1, 1)`, concatenate with `X` along the channel axis (this
needs `X` to share the batch length and the 1×1 spatial extent), and run
the stack. -/
def snganGenForward (z_dim c_dim img_channels : ℕ) (X : Shape4)
    (ys : List ℤ) : Option Shape4 := do
  let _ ← oneHotBatch c_dim ys
  if X.n = ys.length ∧ X.h = 1 ∧ X.w = 1 then
    snganGenStack z_dim c_dim img_channels ⟨X.n, X.c + c_dim, X.h, X.w⟩
  else none

/-- The `self.phi` stack of `Discriminator(c_dim, img_channels)`:
five spectral-normalized convolutions (LeakyReLU activations omitted,
they do not affect shapes) followed by `nn.Flatten()`. -/
def snganDiscPhi (img_channels : ℕ) (sh : Shape4) : Option Shape2 :=
  (conv2dShape img_channels 64 4 2 1 sh >>=
   conv2dShape 64 128 4 2 1 >>=
   conv2dShape 128 256 4 2 1 >>=
   conv2dShape 256 512 4 2 1 >>=
   conv2dShape 512 1024 4 1 0).map flattenShape

/-- `Discriminator.forward(X, y)`: compute `phiX = self.phi(X)`, then
`f1 = torch.sum(F.one_hot(y, c_dim) * self.classifier(phiX), dim=1, keepdim=True)`
(the elementwise product needs the label batch to match the data batch),
then `f2 = self.psi(phiX)`, returning a `(batch, 1)` score. -/
def snganDiscForward (c_dim img_channels : ℕ) (X : Shape4)
    (ys : List ℤ) : Option Shape2 := do
  let phiX ← snganDiscPhi img_channels X
  let _ ← oneHotBatch c_dim ys
  let cls ← linearShape 1024 c_dim phiX
  if cls.n = ys.length then
    let _ ← linearShape 1024 1 phiX
    some ⟨cls.n, 1⟩
  else none

lemma oneHotBatch_eq_none_of_out_of_range (c : ℕ) :
    ∀ ys : List ℤ, (∃ l ∈ ys, l < 0 ∨ (c : ℤ) ≤ l) →
      oneHotBatch c ys = none := by
  intro ys
  induction ys with
  | nil =>
    rintro ⟨l, hl, _⟩
    exact absurd hl (List.not_mem_nil l)
  | cons a l ih =>
    rintro ⟨x, hx, hbad⟩
    rcases List.mem_cons.mp hx with rfl | hxl
    · have hx0 : one_hot c x = none := by
        unfold one_hot
        rw [if_neg]
        rintro ⟨h0, hc⟩
        rcases hbad with h | h
        · exact absurd h0 (not_le.mpr h)
        · exact absurd hc (not_lt.mpr h)
      show (one_hot c x).bind _ = none
      rw [hx0]
      rfl
    · have hrec := ih ⟨x, hxl, hbad⟩
      show (one_hot c a).bind _ = none
      cases hone : one_hot c a with
      | none => rfl
      | some v =>
        show (oneHotBatch c l).bind _ = none
        rw [hrec]
        rfl

lemma oneHotBatch_isSome_of_in_range (c : ℕ) :
    ∀ ys : List ℤ, (∀ l ∈ ys, 0 ≤ l ∧ l < (c : ℤ)) →
      (oneHotBatch c ys).isSome = true := by
  intro ys
  induction ys with
  | nil => intro _; rfl
  | cons a l ih =>
    intro h
    have ha : one_hot c a = some (List.ofFn fun j : Fin c => if (j : ℤ) = a then 1 else 0) := by
      unfold one_hot
      rw [if_pos (h a (List.mem_cons_self a l))]
    have hl := ih (fun x hx => h x (List.mem_cons_of_mem a hx))
    obtain ⟨w, hw⟩ := Option.isSome_iff_exists.mp hl
    show ((one_hot c a).bind _).isSome = true
    rw [ha]
    show ((oneHotBatch c l).bind _).isSome = true
    rw [hw]
    rfl

/-- C10: a label batch with an entry outside `[0, c_dim)` makes the
one-hot encoding fail, and with it both `Generator.forward` and
`Discriminator.forward`; a label batch entirely inside `[0, c_dim)` never
makes the one-hot encoding fail. -/
theorem one_hot_range_gate (c_dim z_dim img_channels : ℕ)
    (X XD : Shape4) (ys : List ℤ) :
    ((∃ l ∈ ys, l < 0 ∨ (c_dim : ℤ) ≤ l) →
      oneHotBatch c_dim ys = none ∧
      snganGenForward z_dim c_dim img_channels X ys = none ∧
      snganDiscForward c_dim img_channels XD ys = none) ∧
    ((∀ l ∈ ys, 0 ≤ l ∧ l < (c_dim : ℤ)) →
      (oneHotBatch c_dim ys).isSome = true) := by
  constructor
  · intro hbad
    have hnone := oneHotBatch_eq_none_of_out_of_range c_dim ys hbad
    refine ⟨hnone, ?_, ?_⟩
    · unfold snganGenForward
      rw [hnone]
      rfl
    · unfold snganDiscForward
      cases hphi : snganDiscPhi img_channels XD with
      | none => rfl
      | some phiX =>
        rw [hnone]
        rfl
  · exact oneHotBatch_isSome_of_in_range c_dim ys

/-- C10 witness: the label batch `[3, -1]` (entry −1 out of range for
`c_dim = 10`) makes the encoding fail, `[3, 5]` does not. -/
theorem one_hot_range_gate_witness :
    oneHotBatch 10 [3, -1] = none ∧ (oneHotBatch 10 [3, 5]).isSome = true :=
  ⟨((one_hot_range_gate 10 100 3 ⟨2, 100, 1, 1⟩ ⟨2, 3, 64, 64⟩ [3, -1]).1
      ⟨-1, by decide, by decide⟩).1,
   (one_hot_range_gate 10 100 3 ⟨2, 100, 1, 1⟩ ⟨2, 3, 64, 64⟩ [3, 5]).2
      (by decide)⟩

/-- C8: with `z_dim = 100`, `c_dim = 10`, `img_channels = 3`, a latent
batch of shape `(10, 100, 1, 1)` and any batch of 10 labels in `[0, 10)`,
the Generator produces a `(10, 3, 64, 64)` sample batch and the
Discriminator maps that batch with the same labels to `(10, 1)` scores. -/
theorem sngan_end_to_end_shapes (ys : List ℤ) (hlen : ys.length = 10)
    (hrange : ∀ l ∈ ys, 0 ≤ l ∧ l < (10 : ℤ)) :
    snganGenForward 100 10 3 ⟨10, 100, 1, 1⟩ ys = some ⟨10, 3, 64, 64⟩ ∧
    snganDiscForward 10 3 ⟨10, 3, 64, 64⟩ ys = some ⟨10, 1⟩ := by
  obtain ⟨oh, hoh⟩ := Option.isSome_iff_exists.mp
    (oneHotBatch_isSome_of_in_range 10 ys (by exact_mod_cast hrange))
  constructor
  · unfold snganGenForward
    rw [hoh, hlen]
    rfl
  · unfold snganDiscForward
    rw [show snganDiscPhi 3 ⟨10, 3, 64, 64⟩ = some ⟨10, 1024⟩ from rfl]
    simp only [Option.some_bind]
    rw [hoh, hlen]
    rfl

/-- C8 witness: the end-to-end shape theorem at the concrete label batch
`[0, 1, 2, 3, 4, 5, 6, 7, 8, 9]`. -/
theorem sngan_end_to_end_shapes_witness :
    snganGenForward 100 10 3 ⟨10, 100, 1, 1⟩ [0, 1, 2, 3, 4, 5, 6, 7, 8, 9] =
      some ⟨10, 3, 64, 64⟩ ∧
    snganDiscForward 10 3 ⟨10, 3, 64, 64⟩ [0, 1, 2, 3, 4, 5, 6, 7, 8, 9] =
      some ⟨10, 1⟩ :=
  sngan_end_to_end_shapes [0, 1, 2, 3, 4, 5, 6, 7, 8, 9] (by decide) (by decide)

/-! ### Per-variant layer stacks (src/GAN/models.py, src/WGAN-GP/models.py,
src/SAGAN/models.py, src/SNGAN-projection/models.py) -/

/-- Activation nonlinearities occurring in the stacks.  `leakyRelu`
records the negative slope (`nn.LeakyReLU()` defaults to 1/100). -/
inductive Activation
  | relu
  | leakyRelu (slope : ℚ)
  | tanh
  | sigmoid
deriving DecidableEq

/-- One stage of a network stack, with its construction parameters; `sn`
records whether the layer is wrapped in `spectral_norm`. -/
inductive LayerSpec
  | linear (inF outF : ℕ) (sn : Bool)
  | conv2d (ic oc k s p : ℕ) (sn : Bool)
  | convTranspose2d (ic oc k s p : ℕ) (sn : Bool)
  | batchNorm1d (c : ℕ)
  | batchNorm2d (c : ℕ)
  | act (a : Activation)
  | selfAttention (c : ℕ)
  | flattenL
deriving DecidableEq

/-- The plain GAN discriminator stack (src/GAN/models.py). -/
def ganDiscLayers : List LayerSpec :=
  [.linear 1000 256 false, .act (.leakyRelu (1 / 100)),
   .linear 256 256 false, .act (.leakyRelu (1 / 100)),
   .linear 256 256 false, .act (.leakyRelu (1 / 100)),
   .linear 256 1 false, .act .sigmoid]

/-- The plain GAN generator stack (src/GAN/models.py). -/
def ganGenLayers : List LayerSpec :=
  [.linear 100 256 false, .act (.leakyRelu (1 / 100)),
   .linear 256 256 false, .act (.leakyRelu (1 / 100)),
   .linear 256 256 false, .act (.leakyRelu (1 / 100)),
   .linear 256 1000 false, .act .tanh]

/-- The WGAN-GP critic stack (src/WGAN-GP/models.py). -/
def wganGpDiscLayers : List LayerSpec :=
  [.linear 1000 256 false, .act (.leakyRelu (1 / 5)),
   .linear 256 256 false, .act (.leakyRelu (1 / 5)),
   .linear 256 256 false, .act (.leakyRelu (1 / 5)),
   .linear 256 1 false]

/-- The WGAN-GP generator stack (src/WGAN-GP/models.py). -/
def wganGpGenLayers : List LayerSpec :=
  [.linear 100 256 false, .act (.leakyRelu (1 / 5)),
   .linear 256 512 false, .batchNorm1d 512, .act (.leakyRelu (1 / 5)),
   .linear 512 1024 false, .batchNorm1d 1024, .act (.leakyRelu (1 / 5)),
   .linear 1024 1000 false, .act .tanh]

/-- The SAGAN discriminator stack (src/SAGAN/models.py), submodules in
forward order. -/
def saganDiscLayers : List LayerSpec :=
  [.conv2d 3 64 4 2 1 true, .act (.leakyRelu (1 / 5)),
   .selfAttention 64,
   .conv2d 64 128 4 2 1 true, .act (.leakyRelu (1 / 5)),
   .selfAttention 128,
   .conv2d 128 256 4 2 1 true, .act (.leakyRelu (1 / 5)),
   .conv2d 256 512 4 2 1 true, .act (.leakyRelu (1 / 5)),
   .conv2d 512 1 4 1 0 true, .flattenL]

/-- The SAGAN generator stack (src/SAGAN/models.py), submodules in
forward order. -/
def saganGenLayers : List LayerSpec :=
  [.convTranspose2d 100 512 4 1 0 true, .batchNorm2d 512, .act .relu,
   .convTranspose2d 512 256 4 2 1 true, .batchNorm2d 256, .act .relu,
   .convTranspose2d 256 128 4 2 1 true, .batchNorm2d 128, .act .relu,
   .selfAttention 128,
   .convTranspose2d 128 64 4 2 1 true, .batchNorm2d 64, .act .relu,
   .selfAttention 64,
   .convTranspose2d 64 3 4 2 1 false, .act .tanh]

/-- The SNGAN-projection discriminator feature stack `phi` followed by
the two heads (src/SNGAN-projection/models.py). -/
def snganDiscLayers : List LayerSpec :=
  [.conv2d 3 64 4 2 1 true, .act (.leakyRelu (1 / 5)),
   .conv2d 64 128 4 2 1 true, .act (.leakyRelu (1 / 5)),
   .conv2d 128 256 4 2 1 true, .act (.leakyRelu (1 / 5)),
   .conv2d 256 512 4 2 1 true, .act (.leakyRelu (1 / 5)),
   .conv2d 512 1024 4 1 0 true, .flattenL,
   .linear 1024 10 true, .linear 1024 1 true]

/-- The SNGAN-projection generator stack `gen`
(src/SNGAN-projection/models.py). -/
def snganGenLayers : List LayerSpec :=
  [.convTranspose2d 110 1024 4 1 0 false, .batchNorm2d 1024, .act .relu,
   .convTranspose2d 1024 512 4 2 1 false, .batchNorm2d 512, .act .relu,
   .convTranspose2d 512 256 4 2 1 false, .batchNorm2d 256, .act .relu,
   .convTranspose2d 256 128 4 2 1 false, .batchNorm2d 128, .act .relu,
   .convTranspose2d 128 3 4 2 1 false, .act .tanh]

/-- The activations of a stack, in order. -/
def activationsOf (ls : List LayerSpec) : List Activation :=
  ls.filterMap fun l => match l with
    | .act a => some a
    | _ => none

/-- The activations of a stack other than its final one (for generators,
everything before the saturating output activation). -/
def hiddenActivationsOf (ls : List LayerSpec) : List Activation :=
  (activationsOf ls).dropLast

/-- Is an activation a steep-slope (leaky) rectifier? -/
def Activation.isLeaky : Activation → Bool
  | .leakyRelu _ => true
  | _ => false

/-- C9 counterexample: the WGAN-GP generator stack uses a leaky rectifier
— not a standard rectifier — as a hidden (non-final) activation, so it is
false that every variant's generator path uses standard rectifiers. -/
theorem activations_claim_counterexample :
    Activation.leakyRelu (1 / 5) ∈ hiddenActivationsOf wganGpGenLayers ∧
    Activation.leakyRelu (1 / 5) ≠ Activation.relu := by
  constructor
  · show Activation.leakyRelu (1 / 5) ∈ [Activation.leakyRelu (1 / 5),
      Activation.leakyRelu (1 / 5), Activation.leakyRelu (1 / 5)]
    exact List.mem_cons_self _ _
  · intro h
    exact Activation.noConfusion h

/-- C9 amended: every rectifier activation on a discriminator path is a
steep-slope (leaky) rectifier in all four variants (the plain GAN
discriminator additionally ends with a sigmoid squashing); generator
hidden activations are standard rectifiers in the SAGAN and
SNGAN-projection variants but leaky rectifiers in the plain GAN and
WGAN-GP variants; every generator ends with a saturating tanh. -/
theorem activations_by_variant :
    (∀ a ∈ hiddenActivationsOf ganDiscLayers, a.isLeaky = true) ∧
    (activationsOf ganDiscLayers).getLast? = some Activation.sigmoid ∧
    (∀ a ∈ activationsOf wganGpDiscLayers, a.isLeaky = true) ∧
    (∀ a ∈ activationsOf saganDiscLayers, a.isLeaky = true) ∧
    (∀ a ∈ activationsOf snganDiscLayers, a.isLeaky = true) ∧
    (∀ a ∈ hiddenActivationsOf saganGenLayers, a = Activation.relu) ∧
    (∀ a ∈ hiddenActivationsOf snganGenLayers, a = Activation.relu) ∧
    (∀ a ∈ hiddenActivationsOf ganGenLayers, a.isLeaky = true) ∧
    (∀ a ∈ hiddenActivationsOf wganGpGenLayers, a.isLeaky = true) ∧
    (activationsOf ganGenLayers).getLast? = some Activation.tanh ∧
    (activationsOf wganGpGenLayers).getLast? = some Activation.tanh ∧
    (activationsOf saganGenLayers).getLast? = some Activation.tanh ∧
    (activationsOf snganGenLayers).getLast? = some Activation.tanh := by
  refine ⟨?_, rfl, ?_, ?_, ?_, ?_, ?_, ?_, ?_, rfl, rfl, rfl, rfl⟩ <;>
    · intro a ha
      fin_cases ha <;> rfl

end ReproGANs
